import Mathlib

/-!
Verification of the agentic orchestration core of the sukode editor
assistant: the tool-call processor and executor, the conversation store
(truncation, sanitation, validation, summarization) and the agent loop.

The definitions below are a shallow embedding of the TypeScript sources
(`AgentLoopService.ts`, `ConversationManager.ts`, the tool-call processor,
tool executor, message formatter and response generator).  External
collaborators (the OpenAI transport, `JSON.parse`, the tool
implementations, the user-confirmation prompt, the clock) are modelled as
an oracle environment `Env`; everything that is code of the repository is
translated function by function.  JavaScript truthiness of optional
strings (`""` and `undefined` are both falsy) is modelled by `strTruthy`;
`undefined` fields are `Option.none`.
-/

namespace Sukode

/-- The four chat roles of `types.ts`. -/
inductive Role : Type
  | user
  | assistant
  | system
  | tool
deriving DecidableEq

/-- The `function` field of a tool call: `{name, arguments}` (arguments is the raw JSON text). -/
structure ToolCallFunction : Type where
  name : String
  arguments : String
deriving DecidableEq

/-- A model-requested tool call `{id, function}` as carried on assistant messages. -/
structure ToolCall : Type where
  id : String
  function : ToolCallFunction
deriving DecidableEq

/-- A transcript entry (`ConversationMessage` of `types.ts`).  `content` is
`none` where the TypeScript object lacks the field or holds `null`;
`tool_calls` is `none` when the field is absent (an absent field and an
empty array differ under JavaScript truthiness and the source checks both). -/
structure Message : Type where
  role : Role
  content : Option String := none
  tool_calls : Option (List ToolCall) := none
  tool_call_id : Option String := none
deriving DecidableEq

/-- The `ToolCallResult` record of `types.ts`. -/
structure ToolCallResult : Type where
  tool_call_id : String
  output : String
  success : Bool
deriving DecidableEq

/-- JavaScript truthiness of an optional string: `undefined` and `""` are falsy. -/
def strTruthy (o : Option String) : Bool :=
  decide (o.getD "" ≠ "")

/-- The tool calls of a message, reading an absent field as the empty list
(used where the source guards with `tool_calls && tool_calls.length > 0`). -/
def toolCallsOf (m : Message) : List ToolCall :=
  m.tool_calls.getD []

/-- A JSON value as far as the code inspects one: a string, or anything else. -/
inductive JsonVal : Type
  | str (s : String)
  | other
deriving DecidableEq

/-- The object produced by `JSON.parse` on a tool call's argument text, as far
as the code reads it: named fields, strings distinguished. -/
abbrev ParsedArgs := List (String × JsonVal)

/-- Observed outcome of racing one tool implementation against the timeout
timer in `ToolExecutor.executeWithTimeout`: the tool resolves first, the tool
rejects first (with the thrown value's string form), or the timer fires first. -/
inductive ToolBehavior : Type
  | completes (out : String)
  | throws (errText : String)
  | timesOut
deriving DecidableEq

/-- The outcome of one main-loop `createChatCompletion` call: an assistant
message, or a thrown value (`isError` is `instanceof Error`, `message` its
string form). -/
inductive ChatOutcome : Type
  | ok (msg : Message)
  | err (isError : Bool) (message : String)
deriving DecidableEq

/-- The outcome of the summarization `createChatCompletion` call:
`ok c` returns a response whose `choices[0]?.message?.content` is `c`
(`none` for a missing field), `fail` is a thrown transport error. -/
inductive SummarizeOutcome : Type
  | ok (content : Option String)
  | fail
deriving DecidableEq

/-- The oracle environment: everything outside the repository's own code.
`parse` is `JSON.parse` on argument text; `behavior` the observed race
outcome of a tool run (indexed by tool name and raw argument text);
`chat` the per-call outcomes of the main loop's chat completions;
`approval` the user's answers to confirmation prompts; `now` the clock. -/
structure Env : Type where
  apiKeyConfigured : Bool
  parse : String → Except String ParsedArgs
  behavior : String → String → ToolBehavior
  chat : Nat → ChatOutcome
  summarizeOutcome : SummarizeOutcome
  approval : Nat → Bool
  now : Nat

/-! ## Tool Executor (`ToolExecutor` in the source) -/

/-- The confirmation-required tool names declared by `ToolExecutor`. -/
def breakingChangeToolNames : List String :=
  ["create_file", "update_file", "create_directory", "run_command"]

/-- ToolExecutor.requiresUserConfirmation: membership in the fixed list. -/
def requiresUserConfirmation (toolName : String) : Bool :=
  breakingChangeToolNames.contains toolName

/-- ToolExecutor.executeWithTimeout: races the tool against a timer and always
resolves — a timer win yields the textual timeout message, a thrown error is
converted to `"Error executing tool: <error>"` text.  It never rejects. -/
def executeWithTimeout (b : ToolBehavior) (timeoutMs : Nat) : String :=
  match b with
  | ToolBehavior.completes out => out
  | ToolBehavior.throws e => "Error executing tool: " ++ e
  | ToolBehavior.timesOut =>
      "Tool execution timed out after " ++ toString (timeoutMs / 1000) ++ " seconds"

/-- ToolExecutor.executeToolWithTimeout: wraps `executeWithTimeout`; since the
inner promise always resolves, the outer catch is dead and the result is the
inner one. -/
def executeToolWithTimeout (env : Env) (functionName functionArgsText : String)
    (timeoutMs : Nat) : String :=
  executeWithTimeout (env.behavior functionName functionArgsText) timeoutMs

/-! ## Tool Call Processor (`ToolCallProcessorService`) -/

/-- One pass of the loop body of `processToolCalls`: parse the arguments
(`JSON.parse` may throw — caught, recorded as a failed result with an
`"Error: "` prefix); otherwise run the executor (which never throws) and
record a successful result carrying its output. -/
def processOneToolCall (env : Env) (c : ToolCall) : ToolCallResult :=
  match env.parse c.function.arguments with
  | Except.error msg =>
      { tool_call_id := c.id, output := "Error: " ++ msg, success := false }
  | Except.ok _ =>
      { tool_call_id := c.id
        output := executeToolWithTimeout env c.function.name c.function.arguments 30000
        success := true }

/-- The sequential result accumulation of `processToolCalls`. -/
def processToolCallsGo (env : Env) : List ToolCall → List ToolCallResult
  | [] => []
  | c :: rest => processOneToolCall env c :: processToolCallsGo env rest

/-- ToolCallProcessorService.processToolCalls: processes the calls in order;
the `breakingChangeTools` parameter is only logged and the returned
`requiresUserConfirmation` flag is hard-coded `false`. -/
def processToolCalls (env : Env) (toolCalls : List ToolCall)
    (_breakingChangeTools : List String) : Bool × List ToolCallResult :=
  (false, processToolCallsGo env toolCalls)

/-! ## Association-list helpers modelling JavaScript `Map` (insertion order,
`set` overwrites in place). -/

/-- Map.set: overwrite in place when the key exists, else append. -/
def updAssoc {κ α : Type} [DecidableEq κ] (l : List (κ × α)) (k : κ) (v : α) :
    List (κ × α) :=
  if l.any (fun p => decide (p.1 = k)) then
    l.map (fun p => if p.1 = k then (k, v) else p)
  else l ++ [(k, v)]

/-- Map.get. -/
def lookupAssoc {κ α : Type} [DecidableEq κ] (l : List (κ × α)) (k : κ) : Option α :=
  (l.find? (fun p => decide (p.1 = k))).map Prod.snd

/-! ## Conversation Store (`ConversationManager`): truncation -/

/-- Descending insertion for `sort((a, b) => b - a)`. -/
def insertDesc (x : Nat) : List Nat → List Nat
  | [] => [x]
  | y :: t => if y ≤ x then x :: y :: t else y :: insertDesc x t

/-- Sort a list of indices in descending order. -/
def sortDesc (l : List Nat) : List Nat :=
  l.foldr insertDesc []

/-- Apply `splice(i, 1)` for each index in the given order (the callers pass
indices sorted descending so earlier deletions do not shift later ones). -/
def removeAtIndices (h : List Message) (idxs : List Nat) : List Message :=
  idxs.foldl (fun acc i => acc.eraseIdx i) h

/-- Step 1 of `safelyTruncateConversationHistory`: walk the transcript once,
building `toolCallMap : tool_call_id -> assistant index` and
`toolResponseMap : assistant index -> response indices` exactly as the source
does (later assistants overwrite a reused id; a response is credited to the
assistant the map knows at that point). -/
def buildRespMapGo : List Message → Nat → List (String × Nat) → List (Nat × List Nat) →
    List (Nat × List Nat)
  | [], _, _, respMap => respMap
  | m :: rest, i, callMap, respMap =>
    let isAsst : Bool := decide (m.role = Role.assistant) && decide (toolCallsOf m ≠ [])
    let callMap1 : List (String × Nat) :=
      if isAsst then (toolCallsOf m).foldl (fun cm tc => updAssoc cm tc.id i) callMap
      else callMap
    let respMap1 : List (Nat × List Nat) :=
      if isAsst then updAssoc respMap i ([] : List Nat) else respMap
    let respMap2 : List (Nat × List Nat) :=
      if decide (m.role = Role.tool) && strTruthy m.tool_call_id then
        match lookupAssoc callMap1 (m.tool_call_id.getD "") with
        | some ai => updAssoc respMap1 ai ((lookupAssoc respMap1 ai).getD [] ++ [i])
        | none => respMap1
      else respMap1
    buildRespMapGo rest (i + 1) callMap1 respMap2

/-- Math.max over the response indices of the assistant at `nextIndex`,
with `nextIndex` itself as the floor. -/
def maxRespIndex (respMap : List (Nat × List Nat)) (nextIndex : Nat) : Nat :=
  ((lookupAssoc respMap nextIndex).getD []).foldl Nat.max nextIndex

/-- Break condition of the truncation scan at user index `i`: the next message
is a tool-calling assistant whose recorded responses reach the protected tail. -/
def truncScanBreak (h : List Message) (respMap : List (Nat × List Nat))
    (stop i : Nat) : Bool :=
  match h[i + 1]? with
  | some nm =>
      decide (nm.role = Role.assistant) && decide (toolCallsOf nm ≠ []) &&
        decide (stop ≤ maxRespIndex respMap (i + 1))
  | none => false

/-- Step 2 of `safelyTruncateConversationHistory`: the scan for a safe removal
point.  `stop` is `length - minimumToKeep`, `excess` the number of messages over
the maximum.  The cut candidate advances to `i + 1` only at a user message; a
user message directly followed by a tool-calling assistant whose recorded
responses reach into the protected tail breaks the scan.  The fuel starts at
`stop` and each step consumes one unit while `i` grows by one, so the fuel
never runs out before the `i < stop` guard fails. -/
def findSRPGo (h : List Message) (respMap : List (Nat × List Nat)) (stop excess : Nat) :
    Nat → Nat → Nat → Nat
  | 0, _, srp => srp
  | fuel + 1, i, srp =>
    if i < stop then
      match h[i]? with
      | none => srp
      | some m =>
        if m.role = Role.user then
          if truncScanBreak h respMap stop i then srp
          else if excess ≤ i + 1 then i + 1
          else findSRPGo h respMap stop excess fuel (i + 1) (i + 1)
        else if excess ≤ srp then srp
        else findSRPGo h respMap stop excess fuel (i + 1) srp
    else srp

/-- ConversationManager.safelyTruncateConversationHistory: a no-op at or under
the maximum; otherwise drop the prefix up to the safe removal point (cutting
only right after a user message), leaving the transcript over-length when no
safe point removes enough. -/
def safelyTruncateConversationHistory (maxLen : Nat) (h : List Message) : List Message :=
  if h.length ≤ maxLen then h
  else
    let minimumToKeep := maxLen / 2 * 2
    let excessMessages := h.length - maxLen
    if excessMessages = 0 then h
    else
      let respMap := buildRespMapGo h 0 [] []
      let stop := h.length - minimumToKeep
      let p := findSRPGo h respMap stop excessMessages stop 0 0
      if 0 < p then h.drop p else h

/-- The store's configured maximum history length. -/
def maxHistoryLength : Nat := 10

/-- ConversationManager.addToConversationHistory: push, then truncate. -/
def addToConversationHistory (h : List Message) (m : Message) : List Message :=
  safelyTruncateConversationHistory maxHistoryLength (h ++ [m])

/-! ## Conversation Store: sanitizeToolMessages -/

/-- The map-building walk of `sanitizeToolMessages`:
`assistantToolCalls : id -> assistant index` and
`toolResponses : id -> response indices`. -/
def sanitizeBuildMapsGo : List Message → Nat → List (String × Nat) →
    List (String × List Nat) → List (String × Nat) × List (String × List Nat)
  | [], _, aMap, tMap => (aMap, tMap)
  | m :: rest, i, aMap, tMap =>
    let aMap1 :=
      if m.role = Role.assistant ∧ toolCallsOf m ≠ [] then
        (toolCallsOf m).foldl (fun am tc => updAssoc am tc.id i) aMap
      else aMap
    let tMap1 :=
      if m.role = Role.tool ∧ strTruthy m.tool_call_id = true then
        updAssoc tMap (m.tool_call_id.getD "")
          ((lookupAssoc tMap (m.tool_call_id.getD "")).getD [] ++ [i])
      else tMap
    sanitizeBuildMapsGo rest (i + 1) aMap1 tMap1

/-- ConversationManager.sanitizeToolMessages: remove every tool response whose
id has no assistant call anywhere, and every assistant message one of whose
call ids has no response anywhere; returns the new history and the removal
count. -/
def sanitizeToolMessages (h : List Message) : List Message × Nat :=
  if h.isEmpty then (h, 0)
  else
    let maps := sanitizeBuildMapsGo h 0 [] []
    let orphanedToolResponses : List Nat :=
      maps.2.foldl (fun acc p =>
        if (lookupAssoc maps.1 p.1).isSome then acc else acc ++ p.2) ([] : List Nat)
    let orphanedToolCalls : List Nat :=
      maps.1.foldl (fun acc p =>
        if (lookupAssoc maps.2 p.1).isSome then acc
        else if acc.contains p.2 then acc else acc ++ [p.2]) ([] : List Nat)
    if orphanedToolResponses = [] ∧ orphanedToolCalls = [] then (h, 0)
    else
      let allOrphanedIndices := sortDesc (orphanedToolResponses ++ orphanedToolCalls)
      (removeAtIndices h allOrphanedIndices, allOrphanedIndices.length)

/-! ## Conversation Store: validateAndSanitizeConversationHistory -/

/-- First pass, looking back from a tool message for the nearest earlier
assistant message carrying a matching tool call (the source guards the
`tool_calls` field with truthiness only, so an empty array is searched too). -/
def findMatchingAssistantIdx (h : List Message) (i : Nat) (cid : String) : Option Nat :=
  ((List.range i).reverse).find? (fun j =>
    match h[j]? with
    | some pm =>
        decide (pm.role = Role.assistant) && pm.tool_calls.isSome &&
          (toolCallsOf pm).any (fun tc => decide (tc.id = cid))
    | none => false)

/-- Whether any message strictly between positions `j` and `i` is non-tool. -/
def hasInterveningNonTool (h : List Message) (j i : Nat) : Bool :=
  (List.range' (j + 1) (i - (j + 1))).any (fun k =>
    match h[k]? with
    | some m => decide (m.role ≠ Role.tool)
    | none => false)

/-- First pass of `validateAndSanitizeConversationHistory`: indices of tool
messages with no matching earlier call, or separated from their call by an
intervening non-tool message. -/
def pass1Removals (h : List Message) : List Nat :=
  (List.range h.length).filterMap (fun i =>
    match h[i]? with
    | some m =>
        if m.role = Role.tool ∧ strTruthy m.tool_call_id = true then
          match findMatchingAssistantIdx h i (m.tool_call_id.getD "") with
          | none => some i
          | some j => if hasInterveningNonTool h j i then some i else none
        else none
    | none => none)

/-- Whether the tool call `cid` of the assistant at `i` has a response in the
unbroken run of tool messages that follows it. -/
def toolResponseFoundInBlock (h : List Message) (i : Nat) (cid : String) : Bool :=
  ((h.drop (i + 1)).takeWhile (fun m => decide (m.role = Role.tool))).any
    (fun m => decide (m.tool_call_id = some cid))

/-- A second-pass repair entry: the assistant message's index and the dummy
responses its unanswered calls need. -/
structure FixEntry : Type where
  index : Nat
  missingToolResponses : List (String × String)
deriving DecidableEq

/-- Second pass of `validateAndSanitizeConversationHistory`: for every
assistant message with tool calls, record a dummy response for each call with
no response in its following tool block. -/
def pass2Fixes (h : List Message) : List FixEntry :=
  (List.range h.length).filterMap (fun i =>
    match h[i]? with
    | some m =>
        if m.role = Role.assistant ∧ toolCallsOf m ≠ [] then
          let missing := (toolCallsOf m).filterMap (fun tc =>
            if toolResponseFoundInBlock h i tc.id then none
            else some (tc.id, "Tool execution failed or timed out."))
          if missing = [] then none
          else some { index := i, missingToolResponses := missing }
        else none
    | none => none)

/-- The `assistantToToolCallMap` entry for index `i` (built by the second pass
for every assistant message with nonempty tool calls). -/
def assistantToolCallIds (h : List Message) (i : Nat) : List String :=
  match h[i]? with
  | some m =>
      if m.role = Role.assistant ∧ toolCallsOf m ≠ [] then (toolCallsOf m).map ToolCall.id
      else []
  | none => []

/-- The incomplete-streaming pass: an assistant message one of whose calls has
an empty function name or empty argument text is removed together with every
later tool response carrying one of its call ids. -/
def incompleteRemovals (h : List Message) : List Nat :=
  (List.range h.length).foldl (fun acc i =>
    match h[i]? with
    | some m =>
        if m.role = Role.assistant ∧ toolCallsOf m ≠ [] ∧
            (toolCallsOf m).any
              (fun tc => decide (tc.function.name = "" ∨ tc.function.arguments = "")) then
          acc ++ [i] ++ ((List.range' (i + 1) (h.length - (i + 1))).filter (fun j =>
            match h[j]? with
            | some nm =>
                decide (nm.role = Role.tool) && strTruthy nm.tool_call_id &&
                  (assistantToolCallIds h i).contains (nm.tool_call_id.getD "")
            | none => false))
        else acc
    | none => acc)
    []

/-- Fourth pass: insert the recorded dummy responses right after the recorded
index, but only if an assistant message with a `tool_calls` field still sits at
that index of the already-spliced list (the source re-uses the pre-removal
index).  Each response is spliced in at `index + 1`, so a multi-entry fix ends
up in reverse order, as in the source. -/
def applyOneFix (acc : List Message) (fx : FixEntry) : List Message :=
  match acc[fx.index]? with
  | some m =>
      if m.role = Role.assistant ∧ m.tool_calls.isSome then
        fx.missingToolResponses.foldl (fun a pr =>
          a.insertIdx (fx.index + 1)
            { role := Role.tool, content := some pr.2, tool_calls := none
              tool_call_id := some pr.1 })
          acc
      else acc
  | none => acc

/-- ConversationManager.validateAndSanitizeConversationHistory: run the two
marking passes on the original list, splice out the marked indices in
descending order, then apply the repair entries in reverse order against the
already-spliced list. -/
def validateAndSanitizeConversationHistory (h : List Message) : List Message :=
  let removals1 := pass1Removals h
  let fixes := pass2Fixes h
  let removals2 := incompleteRemovals h
  let toRemove := sortDesc ((removals1 ++ removals2).eraseDups)
  let h1 := removeAtIndices h toRemove
  fixes.reverse.foldl applyOneFix h1

/-! ## The pairing invariant (spec section 8, formalized over the data model) -/

/-- How many tool-call entries with id `cid` the message contributes (assistant
messages only). -/
def callContrib (m : Message) (cid : String) : Nat :=
  if m.role = Role.assistant then
    (toolCallsOf m).countP (fun tc => decide (tc.id = cid))
  else 0

/-- How many assistant tool-call entries with id `cid` occur strictly before
position `j`. -/
def countCallsBefore : List Message → Nat → String → Nat
  | _, 0, _ => 0
  | [], _ + 1, _ => 0
  | m :: rest, j + 1, cid => callContrib m cid + countCallsBefore rest j cid

/-- How many tool-role responses with id `cid` occur in the unbroken tool-message
run directly after position `i`. -/
def countRespInBlock (h : List Message) (i : Nat) (cid : String) : Nat :=
  ((h.drop (i + 1)).takeWhile (fun m => decide (m.role = Role.tool))).countP
    (fun m => decide (m.tool_call_id = some cid))

/-- The pairing invariant: every tool message's id matches exactly one earlier
assistant tool call, and every assistant tool call has exactly one response in
the tool-message run that directly follows it. -/
def pairingInvariantB (h : List Message) : Bool :=
  (List.range h.length).all (fun i =>
    match h[i]? with
    | none => true
    | some m =>
        (match m.role, m.tool_call_id with
         | Role.tool, some cid => decide (countCallsBefore h i cid = 1)
         | _, _ => true) &&
        (if m.role = Role.assistant then
           (toolCallsOf m).all (fun tc => decide (countRespInBlock h i tc.id = 1))
         else true))

/-! ## Conversation Store: file-reference extraction for summarization

The source scans message text with the regex
`(?:[a-zA-Z]:\[^\s:\*\?"<>|][^:\*\?"<>|]*)|(?:\/[^\s\/\*\?"<>|][^\/\*\?"<>|]*)+`
(global flag).  In its first group the `\[` escapes the bracket, so what looks
like a character class is not one: the `|` before the `]` is a live alternation
splitting the group into `[a-zA-Z]:\[^\s:\*\?"<>` — dead, because the
mid-pattern `^` anchor can never hold after three consumed characters — and
`][^:\*\?"<>|]*`, which matches a `]` followed by a greedy run of characters
other than colon, star, question mark, double quote, angle brackets and pipe
(slash and whitespace included).  The live alternatives, in the engine's
order, are therefore the `]`-led runs and the one-or-more `/`-led segments.
The scan below reproduces them: leftmost, ordered, greedy, non-overlapping. -/

/-- The character allowed directly after a segment's `/`. -/
def isFirstSegmentChar (c : Char) : Bool :=
  !(c.isWhitespace || c = '/' || c = '*' || c = '?' || c = '"' || c = '<' ||
    c = '>' || c = '|')

/-- The characters allowed in the rest of a segment (whitespace included). -/
def isRestSegmentChar (c : Char) : Bool :=
  !(c = '/' || c = '*' || c = '?' || c = '"' || c = '<' || c = '>' || c = '|')

/-- The characters allowed in the run after a `]`-led match's bracket: the
class excludes colon but allows slash and whitespace. -/
def isBracketRunChar (c : Char) : Bool :=
  !(c = ':' || c = '*' || c = '?' || c = '"' || c = '<' || c = '>' || c = '|')

/-- Greedy match of one-or-more path segments at the head of `rest`; each step
consumes at least two characters, so fuel `rest.length` never runs out first. -/
def matchSegsGo : Nat → List Char → List Char → List Char × List Char
  | 0, acc, rest => (acc, rest)
  | fuel + 1, acc, rest =>
    match rest with
    | '/' :: c :: t =>
        if isFirstSegmentChar c then
          let sp := t.span isRestSegmentChar
          matchSegsGo fuel (acc ++ '/' :: c :: sp.1) sp.2
        else (acc, rest)
    | _ => (acc, rest)

/-- The global scan: at each position try the alternatives in the engine's
order — first the `]`-led run (which always succeeds at a `]`), then the
`/`-led segments; skip one character when neither matches, jump past the
match on success. -/
def pathScan : Nat → List Char → List String
  | 0, _ => []
  | fuel + 1, cs =>
    match cs with
    | [] => []
    | ']' :: t =>
        let sp := t.span isBracketRunChar
        String.mk (']' :: sp.1) :: pathScan fuel sp.2
    | _ :: t =>
        match matchSegsGo cs.length [] cs with
        | ([], _) => pathScan fuel t
        | (m, rest) => String.mk m :: pathScan fuel rest

/-- The filter applied to each match: it must contain a dot and not end in a
slash. -/
def isFileRefMatch (s : String) : Bool :=
  s.data.contains '.' && !(decide (s.data.getLast? = some '/'))

/-- All file-reference matches of one content string. -/
def extractPathMatches (s : String) : List String :=
  (pathScan s.data.length s.data).filter isFileRefMatch

/-- Set.add preserving insertion order. -/
def insertUnique (l : List String) (s : String) : List String :=
  if l.contains s then l else l ++ [s]

/-- The tool-call parameters inspected for file paths. -/
def toolCallFileRefParams : List String :=
  ["FilePath", "DirectoryPath", "TargetFile", "AbsolutePath"]

/-- File references of one tool call: parse its arguments (parse errors are
swallowed), then keep each inspected parameter holding a truthy string. -/
def toolCallFileRefs (env : Env) (tc : ToolCall) : List String :=
  match env.parse tc.function.arguments with
  | Except.error _ => []
  | Except.ok args =>
      toolCallFileRefParams.filterMap (fun p =>
        match lookupAssoc args p with
        | some (JsonVal.str s) => if s = "" then none else some s
        | _ => none)

/-- The file-reference collection pass of `summarizeConversationHistory`:
content matches first, then tool-call parameters, per message in order,
deduplicated in insertion order. -/
def collectFileReferences (env : Env) (h : List Message) : List String :=
  h.foldl (fun acc m =>
    let acc1 :=
      match m.content with
      | some c => (extractPathMatches c).foldl insertUnique acc
      | none => acc
    match m.tool_calls with
    | some tcs => tcs.foldl (fun a tc => (toolCallFileRefs env tc).foldl insertUnique a) acc1
    | none => acc1) []

/-! ## Conversation Store: summarizeConversationHistory -/

/-- The `SummarizedHistoryMessage` record of `types.ts`. -/
structure SummarizedHistoryMessage : Type where
  role : Role
  content : String
  summary_type : String
  file_references : Option (List String) := none
  timestamp : Nat
deriving DecidableEq

/-- What one call to `summarizeConversationHistory` yields: the store's
transcript after the call, the produced summary message, and how many chat
completion calls it made (instrumentation for the never-invokes-the-client
claim). -/
structure SummarizeResult : Type where
  history : List Message
  message : SummarizedHistoryMessage
  clientCalls : Nat
deriving DecidableEq

/-- The reduced view sent to the summarization request: assistant messages
with tool calls contribute only their truthy content, every tool-role message
is dropped, other messages contribute their content. -/
def formattedConversation (h : List Message) : List (Role × String) :=
  h.filterMap (fun m =>
    if m.role = Role.assistant ∧ toolCallsOf m ≠ [] then
      if strTruthy m.content then some (m.role, m.content.getD "") else none
    else if m.role = Role.tool then none
    else some (m.role, m.content.getD ""))

/-- The deterministic fallback summary text with the three role counts. -/
def summarizeFallbackContent (h : List Message) : String :=
  "Conversation summary (fallback): " ++
    toString (h.countP (fun m => decide (m.role = Role.user))) ++
    " user messages, " ++
    toString (h.countP (fun m => decide (m.role = Role.assistant))) ++
    " assistant messages, " ++
    toString (h.countP (fun m => decide (m.role = Role.tool))) ++
    " tool interactions."

/-- ConversationManager.summarizeConversationHistory: the early return on an
empty transcript (no client call, no `file_references` field), the LLM path
(with the `||` fallback text for a missing or empty response content), and the
transport-failure fallback.  The stored transcript is returned unchanged on
every path. -/
def summarizeConversationHistory (env : Env) (history : List Message) : SummarizeResult :=
  if history.length = 0 then
    { history := history
      message := { role := Role.system, content := "No conversation history yet."
                   summary_type := "conversation_history", file_references := none
                   timestamp := env.now }
      clientCalls := 0 }
  else
    let fileReferences := collectFileReferences env history
    match env.summarizeOutcome with
    | SummarizeOutcome.ok c =>
        let summaryContent :=
          if c.getD "" = "" then "Failed to generate conversation summary." else c.getD ""
        { history := history
          message := { role := Role.system, content := summaryContent
                       summary_type := "conversation_history"
                       file_references := some fileReferences, timestamp := env.now }
          clientCalls := 1 }
    | SummarizeOutcome.fail =>
        { history := history
          message := { role := Role.system, content := summarizeFallbackContent history
                       summary_type := "conversation_history"
                       file_references := some fileReferences, timestamp := env.now }
          clientCalls := 1 }

/-! ## Message Formatter and Response Generator -/

/-- MessageFormatterService.formatMessages: system prompt, an optional
synthetic user message describing the last error, then the history. -/
def formatMessages (systemPromptText : String) (conversationHistory : List Message)
    (lastError : Option String) : List Message :=
  ([{ role := Role.system, content := some systemPromptText }] ++
    (match lastError with
     | some e =>
         [{ role := Role.user
            content := some ("There was an error in the previous step: " ++ e ++
              ". Please handle this gracefully and adjust your approach.") }]
     | none => ([] : List Message))) ++ conversationHistory

/-- Estimated payload contribution of one message. -/
def messagePayloadSize (m : Message) : Nat :=
  (match m.content with | some c => c.length | none => 0) +
  (match m.tool_calls with
   | some tcs => tcs.foldl (fun a tc => a + tc.function.name.length +
       tc.function.arguments.length) 0
   | none => 0)

/-- MessageFormatterService.shouldSummarizeHistory. -/
def shouldSummarizeHistory (conversationHistory : List Message)
    (maxPayloadSize maxMessages : Nat) : Bool :=
  decide (maxPayloadSize <
      conversationHistory.foldl (fun acc m => acc + messagePayloadSize m) 0) ||
    decide (maxMessages < conversationHistory.length)

/-- The fixed placeholder text of the response generator. -/
def workingPlaceholder : String :=
  "I'm working on your request. Let me analyze this further..."

/-- ResponseGeneratorService.generateFinalResponse: truthy content, else a
placeholder when tool calls are present, else the empty string. -/
def generateFinalResponse (m : Message) : String :=
  if strTruthy m.content then m.content.getD ""
  else if m.tool_calls.isSome ∧ toolCallsOf m ≠ [] then workingPlaceholder
  else ""

/-! ## Agent Loop (`AgentLoopService`) -/

/-- Substring containment, modelling `String.prototype.includes`. -/
def strContains (hay needle : String) : Bool :=
  (List.range (hay.data.length + 1)).any (fun i => needle.data.isPrefixOf (hay.data.drop i))

/-- The loop's iteration bound. -/
def MAX_ITERATIONS : Nat := 10

/-- The formatter thresholds the loop passes. -/
def MAX_PAYLOAD_SIZE : Nat := 100000

/-- The formatter message-count threshold the loop passes. -/
def MAX_MESSAGES : Nat := 33

/-- The confirmation-required names as declared (again) by the loop. -/
def BREAKING_CHANGE_TOOLS : List String :=
  ["create_file", "update_file", "create_directory", "run_command"]

/-- The fixed reset text of the in-loop protocol-violation recovery. -/
def apiErrorResetMessage : String :=
  "I encountered an API error while processing your request. The conversation has been reset. Please try your question again with simpler instructions."

/-- The message of the error thrown on the credential precondition failure
(the validator's message for a missing key is fixed). -/
def apiKeyInvalidMessage : String :=
  "OpenAI API key validation failed: OpenAI API key not configured. Please set it in the extension settings."

/-- The message of the error thrown on a denied confirmation prompt. -/
def userDeniedMessage : String :=
  "User denied permission for the assistant to make changes"

/-- The iteration-budget-exhausted response, embedding the last error. -/
def iterationExceededMessage (lastError : Option String) : String :=
  "I'm sorry, but I encountered an issue while processing your request. " ++
    (match lastError with
     | some m => "Error: " ++ m
     | none => "Please try again with a clearer or simpler query.")

/-- The system notice the outer catch would append after clearing. -/
def conversationResetNotice : String :=
  "The conversation has been reset due to an API error."

/-- The friendly text of the outer catch's recovery branch. -/
def apiResetFriendlyMessage : String :=
  "I encountered an issue while processing your request. The conversation has been reset to prevent further errors. Please try your question again."

/-- The in-loop test classifying a chat-completion error as a protocol
violation. -/
def isProtocolViolationMsg (e : String) : Bool :=
  strContains e "400 Invalid parameter" ||
    strContains e "messages with role 'tool' must be a response" ||
    strContains e "invalid_request_error"

/-- The outer catch's OpenAI-error test (the `name` comparison of the source
can only see the default name `Error` here and is dropped). -/
def isOpenAIErrorMessage (e : String) : Bool :=
  strContains e "OPENAI_API_ERROR" || isProtocolViolationMsg e

/-- The mutable locals of `executeAgentLoop`'s while loop, plus two
instrumentation counters for chat-completion calls (the loop's own calls and
those made inside summarization). -/
structure LoopState : Type where
  history : List Message
  loopComplete : Bool
  forceExitLoop : Bool
  finalResponse : String
  lastError : Option String
  iterations : Nat
  chatCalls : Nat
  summarizeCalls : Nat
deriving DecidableEq

/-- Re-adding a list of messages one by one through `addToConversationHistory`
(each push re-runs truncation, as in the source's restore loops). -/
def restoreHistory (msgs : List Message) : List Message :=
  msgs.foldl addToConversationHistory []

/-- The summarization block at the top of an iteration: when the formatter
asks for it and more than two messages exist and the old prefix is nonempty,
the store is cleared and re-filled with the old prefix, summarized, then
cleared and re-filled with the full original history.  Only the store state
and the summarize call count are observable; the summary text itself only
feeds the outgoing request. -/
def summarizePreambleRun (env : Env) (ch : List Message) : List Message × Nat :=
  if shouldSummarizeHistory ch MAX_PAYLOAD_SIZE MAX_MESSAGES && decide (2 < ch.length) then
    let olderMessages := ch.take (ch.length - 4)
    if olderMessages.isEmpty then (ch, 0)
    else
      let s := summarizeConversationHistory env (restoreHistory olderMessages)
      (restoreHistory ch, s.clientCalls)
  else (ch, 0)

/-- The summarization block as a state transformer: only the store and the
summarize-call counter change. -/
def summarizePreamble (env : Env) (st : LoopState) : LoopState :=
  { st with history := (summarizePreambleRun env st.history).1
            summarizeCalls := st.summarizeCalls + (summarizePreambleRun env st.history).2 }

/-- The tool-role message built from one tool call result. -/
def toolResponseMessage (r : ToolCallResult) : Message :=
  { role := Role.tool, content := some r.output, tool_call_id := some r.tool_call_id }

/-- Appending every result's tool-role message in order. -/
def appendToolResults (h : List Message) (results : List ToolCallResult) : List Message :=
  results.foldl (fun acc r => addToConversationHistory acc (toolResponseMessage r)) h

/-- One iteration of the agent loop, mirroring the body of the while loop:
increment the counter, run the summarization block, call the chat completion
(protocol violations sanitize and clear the store, set the fixed reset text
and both exit flags; other errors land in `lastError` via the iteration
handler), append the assistant message, then either finish with the generator
(no tool calls), run only the `done` call and finish with its output, or run
all calls, append their responses, and record the first failure as
`lastError`.  A denied confirmation prompt would throw into the iteration
handler, but the processor's confirmation flag is hard-coded false. -/
def iterStep (env : Env) (st0 : LoopState) : LoopState :=
  let k := st0.iterations
  let st1 := summarizePreamble env { st0 with iterations := st0.iterations + 1 }
  let st2 := { st1 with chatCalls := st1.chatCalls + 1 }
  match env.chat k with
  | ChatOutcome.err isError e =>
      if isError && isProtocolViolationMsg e then
        let _ := sanitizeToolMessages st2.history
        { st2 with history := []
                   forceExitLoop := true
                   loopComplete := true
                   finalResponse := apiErrorResetMessage }
      else { st2 with lastError := some e }
  | ChatOutcome.ok assistantMessage =>
      let st3 := { st2 with history := addToConversationHistory st2.history assistantMessage }
      if assistantMessage.tool_calls.isNone ∨ toolCallsOf assistantMessage = [] then
        { st3 with finalResponse := generateFinalResponse assistantMessage
                   loopComplete := true }
      else
        match (toolCallsOf assistantMessage).find?
            (fun tc => decide (tc.function.name = "done")) with
        | some doneToolCall =>
            let results := (processToolCalls env [doneToolCall] []).2
            let st4 := { st3 with history := appendToolResults st3.history results }
            let out := ((results.head?).map ToolCallResult.output).getD ""
            { st4 with finalResponse :=
                         if out = "" then generateFinalResponse assistantMessage else out
                       loopComplete := true }
        | none =>
            let pr := processToolCalls env (toolCallsOf assistantMessage) BREAKING_CHANGE_TOOLS
            if pr.1 && !(env.approval k) then
              { st3 with lastError := some userDeniedMessage }
            else
              let st4 := { st3 with history := appendToolResults st3.history pr.2 }
              match pr.2.find? (fun r => !r.success) with
              | some failed =>
                  { st4 with lastError := some ("Tool execution failed: " ++ failed.output) }
              | none => st4

/-- The while-loop guard. -/
def loopGuard (st : LoopState) : Bool :=
  !st.loopComplete && !st.forceExitLoop && decide (st.iterations < MAX_ITERATIONS)

/-- The while loop on explicit fuel.  `iterStep` increments the counter by
exactly one, so starting the fuel at `MAX_ITERATIONS - iterations` exhausts it
only when the guard is already false (proved below as part of the termination
claim). -/
def agentLoopFuel (env : Env) : Nat → LoopState → LoopState
  | 0, st => st
  | fuel + 1, st =>
    if loopGuard st then agentLoopFuel env fuel (iterStep env st) else st

/-- The while loop from a given state. -/
def runAgentLoop (env : Env) (st : LoopState) : LoopState :=
  agentLoopFuel env (MAX_ITERATIONS - st.iterations) st

/-- The locals as first initialized. -/
def initLoopState (h0 : List Message) : LoopState :=
  { history := h0, loopComplete := false, forceExitLoop := false, finalResponse := ""
    lastError := none, iterations := 0, chatCalls := 0, summarizeCalls := 0 }

/-- The locals after the user query is appended to the session store `h0`. -/
def initialAgentState (query : String) (h0 : List Message) : LoopState :=
  initLoopState (addToConversationHistory h0 { role := Role.user, content := some query })

/-- The code after the while loop: when the loop completed no iteration with
a terminal response, the returned text becomes the iteration-exceeded message
built from the last recorded error (the source computes the response once;
the embedding writes the same conditional in both components). -/
def executeAgentLoopFinish (fin : LoopState) : Except String String × LoopState :=
  (Except.ok (if fin.loopComplete = false then iterationExceededMessage fin.lastError
              else fin.finalResponse),
   { fin with finalResponse :=
       if fin.loopComplete = false then iterationExceededMessage fin.lastError
       else fin.finalResponse })

/-- AgentLoopService.executeAgentLoop over a session whose store holds `h0`:
validate the credentials (an invalid key throws; the outer catch re-throws it
since its fixed message matches no OpenAI-error marker), append the user
query, run the loop, and fall back to the iteration-exceeded text when the
loop finished no iteration with a terminal response.  The pair carries the
returned (or thrown) text and the final loop state, whose `history` is the
store's transcript after the call. -/
def executeAgentLoop (env : Env) (query : String) (h0 : List Message) :
    Except String String × LoopState :=
  if env.apiKeyConfigured = false then
    if isOpenAIErrorMessage apiKeyInvalidMessage then
      -- the outer catch's recovery branch: sanitize, clear, append a notice
      -- (unreachable: the fixed validation message matches no marker)
      let notice : Message := { role := Role.system, content := some conversationResetNotice }
      let cleared := { initLoopState h0 with history := addToConversationHistory [] notice }
      (Except.ok apiResetFriendlyMessage, cleared)
    else (Except.error apiKeyInvalidMessage, initLoopState h0)
  else executeAgentLoopFinish (runAgentLoop env (initialAgentState query h0))

/-! ## Concrete inputs used by witnesses and counterexamples -/

/-- A tool call literal. -/
def mkToolCall (i n a : String) : ToolCall :=
  { id := i, function := { name := n, arguments := a } }

/-- A baseline oracle: key configured, arguments always parse, tools complete
with "ok", the model answers with plain content, summarization transport
fails, prompts are approved. -/
def envBase : Env :=
  { apiKeyConfigured := true
    parse := fun _ => Except.ok []
    behavior := fun _ _ => ToolBehavior.completes "ok"
    chat := fun _ => ChatOutcome.ok { role := Role.assistant, content := some "done." }
    summarizeOutcome := SummarizeOutcome.fail
    approval := fun _ => true
    now := 0 }

/-- An oracle whose tools throw. -/
def envThrowingTool : Env :=
  { envBase with behavior := fun _ _ => ToolBehavior.throws "File already exists" }

/-- A `create_file` call with empty-object arguments. -/
def createFileCall : ToolCall := mkToolCall "call_1" "create_file" "\x7b\x7d"

/-- The assistant message of the validation failing input: one well-formed
tool call with id `a` and no response anywhere. -/
def c3Assistant : Message :=
  { role := Role.assistant, content := some "running a tool"
    tool_calls := some [mkToolCall "a" "list_dir" "\x7b\x7d"] }

/-- The validation failing input: an orphaned tool response followed by an
assistant message whose call has no response. -/
def c3Input : List Message :=
  [{ role := Role.tool, content := some "orphan output", tool_call_id := some "x" },
   c3Assistant]

/-- The sanitize failing input: an assistant with calls `a` and `b`, only `a`
answered. -/
def c3SanitizeInput : List Message :=
  [{ role := Role.assistant, content := none
     tool_calls := some [mkToolCall "a" "list_dir" "\x7b\x7d",
                         mkToolCall "b" "view_file" "\x7b\x7d"] },
   { role := Role.tool, content := some "out a", tool_call_id := some "a" }]

/-- An oracle whose model replies with an assistant message of empty content
and no tool calls. -/
def envEmptyContent : Env :=
  { envBase with chat := fun _ => ChatOutcome.ok { role := Role.assistant, content := some "" } }

/-- An oracle whose model reply includes a `done` call and a sibling call. -/
def envDone : Env :=
  { envBase with
      chat := fun _ => ChatOutcome.ok
        { role := Role.assistant, content := none
          tool_calls := some [mkToolCall "call_d" "done" "\x7b\x7d",
                              mkToolCall "call_s" "list_dir" "\x7b\x7d"] }
      behavior := fun n _ => if n = "done" then ToolBehavior.completes "Task complete."
                             else ToolBehavior.completes "listing" }

/-- An oracle whose chat transport throws a protocol-violation error. -/
def envProtocolError : Env :=
  { envBase with
      chat := fun _ => ChatOutcome.err true "invalid_request_error: bad sequence" }

/-- A plain user message. -/
def mUser : Message := { role := Role.user, content := some "hello" }

/-- An oracle whose chat transport throws a non-protocol error on every call. -/
def envAllFail : Env :=
  { envBase with chat := fun _ => ChatOutcome.err false "boom" }

/-- An oracle with no API key configured. -/
def envNoKey : Env :=
  { envBase with apiKeyConfigured := false }

/-- A three-user-message transcript for the truncation witness. -/
def truncWitnessInput : List Message :=
  [{ role := Role.user, content := some "one" },
   { role := Role.user, content := some "two" },
   { role := Role.user, content := some "three" }]

/-! ## General helper lemmas -/

/-- A string with a nonempty left part of an append is nonempty. -/
theorem append_ne_empty_left (s t : String) (hs : s.length ≠ 0) : s ++ t ≠ "" := by
  intro hcontra
  apply hs
  have hlen := congrArg String.length hcontra
  rw [String.length_append] at hlen
  have hz : s.length + t.length = 0 := by simpa using hlen
  omega

/-- The iteration-exceeded message is never empty. -/
theorem iterationExceededMessage_ne_empty (le : Option String) :
    iterationExceededMessage le ≠ "" := by
  unfold iterationExceededMessage
  apply append_ne_empty_left
  decide

/-! ## Counting lemmas for the pairing invariant -/

/-- Counting before any position of the empty list gives zero. -/
theorem countCallsBefore_nil (n : Nat) (c : String) : countCallsBefore [] n c = 0 := by
  cases n <;> rfl

/-- Extending the prefix by one position adds that message's contribution. -/
theorem countCallsBefore_succ (h : List Message) :
    ∀ (i : Nat) (m : Message) (c : String), h[i]? = some m →
      countCallsBefore h (i + 1) c = countCallsBefore h i c + callContrib m c := by
  induction h with
  | nil =>
    intro i m c hm
    rw [List.getElem?_eq_none (by simp)] at hm
    cases hm
  | cons x rest ih =>
    intro i m c hm
    cases i with
    | zero =>
      rw [List.getElem?_cons_zero] at hm
      cases hm
      show callContrib x c + countCallsBefore rest 0 c = countCallsBefore (x :: rest) 0 c + callContrib x c
      have h1 : countCallsBefore rest 0 c = 0 := by cases rest <;> rfl
      have h2 : countCallsBefore (x :: rest) 0 c = 0 := rfl
      omega
    | succ i' =>
      rw [List.getElem?_cons_succ] at hm
      show callContrib x c + countCallsBefore rest (i' + 1) c =
        (callContrib x c + countCallsBefore rest i' c) + callContrib m c
      rw [ih i' m c hm]
      omega

/-- Monotonicity of the prefix count in the position. -/
theorem countCallsBefore_mono (h : List Message) :
    ∀ (i j : Nat) (c : String), i ≤ j → countCallsBefore h i c ≤ countCallsBefore h j c := by
  induction h with
  | nil =>
    intro i j c _
    rw [countCallsBefore_nil, countCallsBefore_nil]
  | cons x rest ih =>
    intro i j c hij
    cases i with
    | zero =>
      have h0 : countCallsBefore (x :: rest) 0 c = 0 := rfl
      omega
    | succ i' =>
      cases j with
      | zero => omega
      | succ j' =>
        show callContrib x c + countCallsBefore rest i' c ≤
          callContrib x c + countCallsBefore rest j' c
        have := ih i' j' c (by omega)
        omega

/-- An assistant message carrying a call with the sought id contributes. -/
theorem callContrib_pos (m : Message) (tc : ToolCall) (c : String)
    (hrole : m.role = Role.assistant) (htc : tc ∈ toolCallsOf m) (hid : tc.id = c) :
    0 < callContrib m c := by
  unfold callContrib
  rw [if_pos hrole]
  exact List.countP_pos_iff.mpr ⟨tc, htc, decide_eq_true hid⟩

/-- A positive prefix count exhibits a call entry strictly before the position. -/
theorem countCallsBefore_pos (h : List Message) :
    ∀ (j : Nat) (c : String), 0 < countCallsBefore h j c →
      ∃ (i' : Nat) (m' : Message) (tc' : ToolCall), i' < j ∧ h[i']? = some m' ∧
        m'.role = Role.assistant ∧ tc' ∈ toolCallsOf m' ∧ tc'.id = c := by
  induction h with
  | nil =>
    intro j c hpos
    rw [countCallsBefore_nil] at hpos
    omega
  | cons x rest ih =>
    intro j c hpos
    cases j with
    | zero =>
      have h0 : countCallsBefore (x :: rest) 0 c = 0 := rfl
      omega
    | succ j' =>
      have hsum : countCallsBefore (x :: rest) (j' + 1) c =
        callContrib x c + countCallsBefore rest j' c := rfl
      by_cases hx : 0 < callContrib x c
      · unfold callContrib at hx
        by_cases hrole : x.role = Role.assistant
        · rw [if_pos hrole] at hx
          obtain ⟨tc, htc, hdec⟩ := List.countP_pos_iff.mp hx
          exact ⟨0, x, tc, Nat.succ_pos _, by simp, hrole, htc, of_decide_eq_true hdec⟩
        · rw [if_neg hrole] at hx
          omega
      · have hrest : 0 < countCallsBefore rest j' c := by omega
        obtain ⟨i', m', tc', hlt, hg, hr, htcm, hid⟩ := ih j' c hrest
        exact ⟨i' + 1, m', tc', by omega, by simpa using hg, hr, htcm, hid⟩

/-- A positive block count exhibits a tool response strictly after the position. -/
theorem countRespInBlock_pos (h : List Message) (i : Nat) (c : String)
    (hpos : 0 < countRespInBlock h i c) :
    ∃ (k : Nat) (mk : Message), i < k ∧ h[k]? = some mk ∧ mk.role = Role.tool ∧
      mk.tool_call_id = some c := by
  unfold countRespInBlock at hpos
  obtain ⟨m, hmem, hdec⟩ := List.countP_pos_iff.mp hpos
  have hp1 := List.mem_takeWhile_imp hmem
  have hrole : m.role = Role.tool := by simpa using hp1
  have hmem2 : m ∈ h.drop (i + 1) := (List.takeWhile_sublist _).subset hmem
  obtain ⟨n, hn, he⟩ := List.mem_iff_getElem.mp hmem2
  have hbound : i + 1 + n < h.length := by
    have := List.length_drop (i + 1) h
    omega
  refine ⟨i + 1 + n, m, by omega, ?_, hrole, of_decide_eq_true hdec⟩
  rw [List.getElem?_eq_getElem hbound]
  rw [List.getElem_drop] at he
  exact congrArg some he

/-- Clause one of the pairing invariant, extracted: a tool message's id has
exactly one earlier matching call entry. -/
theorem pairingInv_tool {h : List Message} (hinv : pairingInvariantB h = true)
    {j : Nat} {mj : Message} {c : String} (hj : h[j]? = some mj)
    (hrole : mj.role = Role.tool) (hid : mj.tool_call_id = some c) :
    countCallsBefore h j c = 1 := by
  have hjlt : j < h.length := by
    by_contra hge
    rw [List.getElem?_eq_none (by omega)] at hj
    cases hj
  have hall := List.all_eq_true.mp hinv j (List.mem_range.mpr hjlt)
  simp only [hj, hrole, hid, Bool.and_eq_true, decide_eq_true_eq] at hall
  exact hall.1

/-- Clause two of the pairing invariant, extracted: an assistant tool call has
exactly one response in its following tool block. -/
theorem pairingInv_call {h : List Message} (hinv : pairingInvariantB h = true)
    {i : Nat} {mi : Message} {tc : ToolCall} (hi : h[i]? = some mi)
    (hrole : mi.role = Role.assistant) (htc : tc ∈ toolCallsOf mi) :
    countRespInBlock h i tc.id = 1 := by
  have hilt : i < h.length := by
    by_contra hge
    rw [List.getElem?_eq_none (by omega)] at hi
    cases hi
  have hall := List.all_eq_true.mp hinv i (List.mem_range.mpr hilt)
  simp only [hi, hrole, Bool.and_eq_true, eq_self_iff_true, if_true] at hall
  have := List.all_eq_true.mp hall.2 tc htc
  exact of_decide_eq_true this

/-- Under the pairing invariant every matching tool response sits strictly
after its assistant call: a response before its call would force two distinct
matching calls before some response, contradicting uniqueness. -/
theorem resp_after_call {h : List Message} (hinv : pairingInvariantB h = true)
    {i j : Nat} {mi mj : Message} {tc : ToolCall}
    (hi : h[i]? = some mi) (hri : mi.role = Role.assistant) (htc : tc ∈ toolCallsOf mi)
    (hj : h[j]? = some mj) (hrj : mj.role = Role.tool)
    (hid : mj.tool_call_id = some tc.id) : i < j := by
  by_contra hnot
  have hle : j ≤ i := by omega
  have hne : j ≠ i := by
    intro he
    subst he
    rw [hi] at hj
    cases hj
    rw [hri] at hrj
    cases hrj
  have hjlt : j < i := by omega
  have h1 : countCallsBefore h j tc.id = 1 := pairingInv_tool hinv hj hrj hid
  obtain ⟨i', m', tc', hi'j, hgi', hr', htc', hid'⟩ :=
    countCallsBefore_pos h j tc.id (by omega)
  have h2 : countRespInBlock h i tc.id = 1 := pairingInv_call hinv hi hri htc
  obtain ⟨k, mk, hik, hk, hrk, hidk⟩ := countRespInBlock_pos h i tc.id (by omega)
  have h3 : countCallsBefore h k tc.id = 1 := pairingInv_tool hinv hk hrk hidk
  have ha : countCallsBefore h (i' + 1) tc.id =
      countCallsBefore h i' tc.id + callContrib m' tc.id :=
    countCallsBefore_succ h i' m' tc.id hgi'
  have hcp' : 0 < callContrib m' tc.id := callContrib_pos m' tc' tc.id hr' htc' hid'
  have hb : countCallsBefore h (i' + 1) tc.id ≤ countCallsBefore h i tc.id :=
    countCallsBefore_mono h (i' + 1) i tc.id (by omega)
  have hc : countCallsBefore h (i + 1) tc.id =
      countCallsBefore h i tc.id + callContrib mi tc.id :=
    countCallsBefore_succ h i mi tc.id hi
  have hcpi : 0 < callContrib mi tc.id := callContrib_pos mi tc tc.id hri htc rfl
  have hd : countCallsBefore h (i + 1) tc.id ≤ countCallsBefore h k tc.id :=
    countCallsBefore_mono h (i + 1) k tc.id (by omega)
  omega

/-! ## Truncation-scan lemmas -/

/-- The scan's candidate only ever advances to a position right after a user
message. -/
theorem findSRPGo_userCut (h : List Message) (rm : List (Nat × List Nat))
    (stop excess : Nat) :
    ∀ (fuel i srp : Nat),
      (srp = 0 ∨ ∃ m, h[srp - 1]? = some m ∧ m.role = Role.user) →
      (findSRPGo h rm stop excess fuel i srp = 0 ∨
        ∃ m, h[findSRPGo h rm stop excess fuel i srp - 1]? = some m ∧
          m.role = Role.user) := by
  intro fuel
  induction fuel with
  | zero =>
    intro i srp hsrp
    simpa [findSRPGo] using hsrp
  | succ fuel ih =>
    intro i srp hsrp
    simp only [findSRPGo]
    by_cases hstop : i < stop
    · rw [if_pos hstop]
      cases hmi : h[i]? with
      | none => simpa using hsrp
      | some m =>
        dsimp only
        by_cases huser : m.role = Role.user
        · rw [if_pos huser]
          by_cases hbrk : truncScanBreak h rm stop i = true
          · rw [if_pos hbrk]
            exact hsrp
          · rw [if_neg hbrk]
            by_cases hx : excess ≤ i + 1
            · rw [if_pos hx]
              exact Or.inr ⟨m, by simpa using hmi, huser⟩
            · rw [if_neg hx]
              exact ih (i + 1) (i + 1) (Or.inr ⟨m, by simpa using hmi, huser⟩)
        · rw [if_neg huser]
          by_cases hx : excess ≤ srp
          · rw [if_pos hx]
            exact hsrp
          · rw [if_neg hx]
            exact ih (i + 1) srp hsrp
    · rw [if_neg hstop]
      exact hsrp

/-- Truncation is a no-op at or under the configured maximum. -/
theorem truncate_noop (maxLen : Nat) (h : List Message) (hle : h.length ≤ maxLen) :
    safelyTruncateConversationHistory maxLen h = h := by
  unfold safelyTruncateConversationHistory
  rw [if_pos hle]

/-- Truncation always drops a (possibly empty) prefix ending right after a
user message. -/
theorem truncate_eq_drop (maxLen : Nat) (h : List Message) :
    ∃ p, safelyTruncateConversationHistory maxLen h = h.drop p ∧
      (p = 0 ∨ ∃ m, h[p - 1]? = some m ∧ m.role = Role.user) := by
  by_cases hle : h.length ≤ maxLen
  · exact ⟨0, by rw [truncate_noop maxLen h hle, List.drop_zero], Or.inl rfl⟩
  · unfold safelyTruncateConversationHistory
    rw [if_neg hle]
    have hex : ¬ (h.length - maxLen = 0) := by omega
    simp only [hex, if_false]
    have huser := findSRPGo_userCut h (buildRespMapGo h 0 [] [])
      (h.length - maxLen / 2 * 2) (h.length - maxLen)
      (h.length - maxLen / 2 * 2) 0 0 (Or.inl rfl)
    by_cases hp : 0 < findSRPGo h (buildRespMapGo h 0 [] [])
        (h.length - maxLen / 2 * 2) (h.length - maxLen)
        (h.length - maxLen / 2 * 2) 0 0
    · exact ⟨_, by rw [if_pos hp], huser⟩
    · exact ⟨0, by rw [if_neg hp, List.drop_zero], Or.inl rfl⟩

/-! ## Agent-loop lemmas -/

/-- One iteration increments the counter by exactly one. -/
theorem iterStep_iterations (env : Env) (st : LoopState) :
    (iterStep env st).iterations = st.iterations + 1 := by
  unfold iterStep
  dsimp only
  cases env.chat st.iterations with
  | err isError e =>
      dsimp only
      by_cases hb : (isError && isProtocolViolationMsg e) = true
      · rw [if_pos hb]
        rfl
      · rw [if_neg hb]
        rfl
  | ok msg =>
      dsimp only
      by_cases hskip : (msg.tool_calls.isNone ∨ toolCallsOf msg = [])
      · rw [if_pos hskip]
        rfl
      · rw [if_neg hskip]
        cases hfind : (toolCallsOf msg).find? (fun tc => decide (tc.function.name = "done")) with
        | some d => rfl
        | none =>
            by_cases hconf : ((processToolCalls env (toolCallsOf msg) BREAKING_CHANGE_TOOLS).1 &&
                !(env.approval st.iterations)) = true
            · rw [if_pos hconf]
              rfl
            · rw [if_neg hconf]
              cases hfail : (processToolCalls env (toolCallsOf msg)
                  BREAKING_CHANGE_TOOLS).2.find? (fun r => !r.success) with
              | some failed => rfl
              | none => rfl

/-- One iteration either leaves the force-exit flag as it was, or it took the
protocol-violation branch: flag up, reset text, loop complete. -/
theorem iterStep_cases (env : Env) (st : LoopState) :
    (iterStep env st).forceExitLoop = st.forceExitLoop ∨
    ((iterStep env st).forceExitLoop = true ∧
      (iterStep env st).finalResponse = apiErrorResetMessage ∧
      (iterStep env st).loopComplete = true) := by
  unfold iterStep
  dsimp only
  cases env.chat st.iterations with
  | err isError e =>
      dsimp only
      by_cases hb : (isError && isProtocolViolationMsg e) = true
      · rw [if_pos hb]
        exact Or.inr ⟨rfl, rfl, rfl⟩
      · rw [if_neg hb]
        exact Or.inl rfl
  | ok msg =>
      dsimp only
      by_cases hskip : (msg.tool_calls.isNone ∨ toolCallsOf msg = [])
      · rw [if_pos hskip]
        exact Or.inl rfl
      · rw [if_neg hskip]
        cases hfind : (toolCallsOf msg).find? (fun tc => decide (tc.function.name = "done")) with
        | some d => exact Or.inl rfl
        | none =>
            by_cases hconf : ((processToolCalls env (toolCallsOf msg) BREAKING_CHANGE_TOOLS).1 &&
                !(env.approval st.iterations)) = true
            · rw [if_pos hconf]
              exact Or.inl rfl
            · rw [if_neg hconf]
              cases hfail : (processToolCalls env (toolCallsOf msg)
                  BREAKING_CHANGE_TOOLS).2.find? (fun r => !r.success) with
              | some failed => exact Or.inl rfl
              | none => exact Or.inl rfl

/-- The protocol-violation branch of one iteration, as a record equation. -/
theorem iterStep_protocol (env : Env) (st : LoopState) (e : String)
    (hc : env.chat st.iterations = ChatOutcome.err true e)
    (hp : isProtocolViolationMsg e = true) :
    iterStep env st =
      { summarizePreamble env { st with iterations := st.iterations + 1 } with
          chatCalls := st.chatCalls + 1
          history := []
          forceExitLoop := true
          loopComplete := true
          finalResponse := apiErrorResetMessage } := by
  unfold iterStep
  dsimp only
  rw [hc]
  dsimp only
  rw [if_pos (by simp [hp])]
  rfl

/-- A state failing the guard is a fixed point of the loop. -/
theorem agentLoopFuel_stop (env : Env) (fuel : Nat) (st : LoopState)
    (hg : loopGuard st = false) : agentLoopFuel env fuel st = st := by
  cases fuel <;> simp [agentLoopFuel, hg]

/-- A completed state fails the guard. -/
theorem loopGuard_false_of_complete (st : LoopState) (hc : st.loopComplete = true) :
    loopGuard st = false := by
  simp [loopGuard, hc]

/-- Unfolding the loop once when the guard holds. -/
theorem agentLoopFuel_succ_of_guard (env : Env) (fuel : Nat) (st : LoopState)
    (hg : loopGuard st = true) :
    agentLoopFuel env (fuel + 1) st = agentLoopFuel env fuel (iterStep env st) := by
  simp [agentLoopFuel, hg]

/-- The loop never pushes the counter past the bound. -/
theorem agentLoopFuel_iter_le (env : Env) :
    ∀ (fuel : Nat) (st : LoopState), st.iterations ≤ MAX_ITERATIONS →
      (agentLoopFuel env fuel st).iterations ≤ MAX_ITERATIONS := by
  intro fuel
  induction fuel with
  | zero =>
    intro st h
    simpa [agentLoopFuel] using h
  | succ fuel ih =>
    intro st h
    by_cases hg : loopGuard st = true
    · rw [agentLoopFuel_succ_of_guard env fuel st hg]
      apply ih
      rw [iterStep_iterations]
      have hlt : st.iterations < MAX_ITERATIONS := by
        simp [loopGuard] at hg
        exact hg.2
      omega
    · rw [agentLoopFuel_stop env (fuel + 1) st (by simpa using hg)]
      exact h

/-- With fuel at least the remaining budget, the loop runs until its guard
fails: the fuel encoding loses nothing. -/
theorem agentLoopFuel_terminal (env : Env) :
    ∀ (fuel : Nat) (st : LoopState), MAX_ITERATIONS - st.iterations ≤ fuel →
      loopGuard (agentLoopFuel env fuel st) = false := by
  intro fuel
  induction fuel with
  | zero =>
    intro st h
    simp only [agentLoopFuel]
    rw [Bool.eq_false_iff]
    intro hgt
    simp [loopGuard] at hgt
    omega
  | succ fuel ih =>
    intro st h
    by_cases hg : loopGuard st = true
    · have hlt : st.iterations < MAX_ITERATIONS := by
        simp [loopGuard] at hg
        exact hg.2
      rw [agentLoopFuel_succ_of_guard env fuel st hg]
      apply ih
      rw [iterStep_iterations]
      omega
    · rw [agentLoopFuel_stop env (fuel + 1) st (by simpa using hg)]
      simpa using hg

/-- If the loop raised the force-exit flag, it did so in the protocol branch:
the final response is the fixed reset text and the loop is complete. -/
theorem agentLoopFuel_forceExit (env : Env) :
    ∀ (fuel : Nat) (st : LoopState), st.forceExitLoop = false →
      (agentLoopFuel env fuel st).forceExitLoop = true →
      (agentLoopFuel env fuel st).finalResponse = apiErrorResetMessage ∧
      (agentLoopFuel env fuel st).loopComplete = true := by
  intro fuel
  induction fuel with
  | zero =>
    intro st hf h'
    simp only [agentLoopFuel] at h'
    rw [hf] at h'
    cases h'
  | succ fuel ih =>
    intro st hf h'
    by_cases hg : loopGuard st = true
    · rw [agentLoopFuel_succ_of_guard env fuel st hg] at h' ⊢
      rcases iterStep_cases env st with hsame | ⟨hfe, hresp, hcomp⟩
      · exact ih (iterStep env st) (hsame.trans hf) h'
      · have hstop : agentLoopFuel env fuel (iterStep env st) = iterStep env st :=
          agentLoopFuel_stop env fuel _ (loopGuard_false_of_complete _ hcomp)
        rw [hstop]
        exact ⟨hresp, hcomp⟩
    · rw [agentLoopFuel_stop env (fuel + 1) st (by simpa using hg)] at h' ⊢
      rw [hf] at h'
      cases h'

/-- The generator never returns empty text for a message carrying tool calls:
truthy content is nonempty, and otherwise the fixed placeholder is returned. -/
theorem generateFinalResponse_ne_empty (m : Message)
    (h : ¬ (m.tool_calls.isNone = true ∨ toolCallsOf m = [])) :
    generateFinalResponse m ≠ "" := by
  have hsome : m.tool_calls.isSome = true ∧ toolCallsOf m ≠ [] := by
    cases hm : m.tool_calls with
    | none => exact absurd (Or.inl (by rw [hm]; rfl)) h
    | some l =>
        refine ⟨rfl, ?_⟩
        intro hl
        exact h (Or.inr hl)
  unfold generateFinalResponse
  by_cases hct : strTruthy m.content = true
  · rw [if_pos hct]
    simpa [strTruthy] using hct
  · rw [if_neg hct, if_pos hsome]
    decide

/-- The generator returns empty text only for a message with falsy content
and no tool calls. -/
theorem generateFinalResponse_eq_empty (m : Message)
    (h : generateFinalResponse m = "") :
    strTruthy m.content = false ∧ (m.tool_calls.isNone = true ∨ toolCallsOf m = []) := by
  by_cases hct : strTruthy m.content = true
  · unfold generateFinalResponse at h
    rw [if_pos hct] at h
    have hne : m.content.getD "" ≠ "" := by simpa [strTruthy] using hct
    exact absurd h hne
  · by_cases hsome : m.tool_calls.isSome = true ∧ toolCallsOf m ≠ []
    · unfold generateFinalResponse at h
      rw [if_neg hct, if_pos hsome] at h
      exact absurd h (by decide)
    · refine ⟨by simpa using hct, ?_⟩
      cases hm : m.tool_calls with
      | none => exact Or.inl rfl
      | some l =>
          refine Or.inr ?_
          by_contra hl
          exact hsome ⟨by rw [hm]; rfl, hl⟩

/-- If an iteration completes the loop without force-exiting and with empty
final text, the model's reply that iteration was an assistant message whose
generator derivation is empty (the done branch never yields empty text, the
error branches do not complete the loop). -/
theorem iterStep_empty_success (env : Env) (st : LoopState)
    (hc0 : st.loopComplete = false)
    (h1 : (iterStep env st).loopComplete = true)
    (h2 : (iterStep env st).forceExitLoop = false)
    (h3 : (iterStep env st).finalResponse = "") :
    ∃ msg, env.chat st.iterations = ChatOutcome.ok msg ∧
      generateFinalResponse msg = "" := by
  cases hc : env.chat st.iterations with
  | err isError e =>
      by_cases hb : (isError && isProtocolViolationMsg e) = true
      · have hfe : (iterStep env st).forceExitLoop = true := by
          unfold iterStep
          dsimp only
          rw [hc]
          dsimp only
          rw [if_pos hb]
        rw [hfe] at h2
        exact Bool.noConfusion h2
      · have hlc : (iterStep env st).loopComplete = st.loopComplete := by
          unfold iterStep
          dsimp only
          rw [hc]
          dsimp only
          rw [if_neg hb]
          rfl
        rw [hlc, hc0] at h1
        exact Bool.noConfusion h1
  | ok msg =>
      by_cases hskip : (msg.tool_calls.isNone ∨ toolCallsOf msg = [])
      · have hfr : (iterStep env st).finalResponse = generateFinalResponse msg := by
          unfold iterStep
          dsimp only
          rw [hc]
          dsimp only
          rw [if_pos hskip]
        rw [hfr] at h3
        exact ⟨msg, rfl, h3⟩
      · cases hfind : (toolCallsOf msg).find? (fun tc => decide (tc.function.name = "done")) with
        | some d =>
            have hfr : (iterStep env st).finalResponse =
                (if (processOneToolCall env d).output = "" then generateFinalResponse msg
                 else (processOneToolCall env d).output) := by
              unfold iterStep
              dsimp only
              rw [hc]
              dsimp only
              rw [if_neg hskip, hfind]
              rfl
            rw [hfr] at h3
            by_cases hout : (processOneToolCall env d).output = ""
            · rw [if_pos hout] at h3
              exact absurd h3 (generateFinalResponse_ne_empty msg hskip)
            · rw [if_neg hout] at h3
              exact absurd h3 hout
        | none =>
            by_cases hconf : ((processToolCalls env (toolCallsOf msg) BREAKING_CHANGE_TOOLS).1 &&
                !(env.approval st.iterations)) = true
            · have hlc : (iterStep env st).loopComplete = st.loopComplete := by
                unfold iterStep
                dsimp only
                rw [hc]
                dsimp only
                rw [if_neg hskip, hfind]
                dsimp only
                rw [if_pos hconf]
                rfl
              rw [hlc, hc0] at h1
              exact Bool.noConfusion h1
            · cases hfail : (processToolCalls env (toolCallsOf msg)
                  BREAKING_CHANGE_TOOLS).2.find? (fun r => !r.success) with
              | some failed =>
                  have hlc : (iterStep env st).loopComplete = st.loopComplete := by
                    unfold iterStep
                    dsimp only
                    rw [hc]
                    dsimp only
                    rw [if_neg hskip, hfind]
                    dsimp only
                    rw [if_neg hconf, hfail]
                    rfl
                  rw [hlc, hc0] at h1
                  exact Bool.noConfusion h1
              | none =>
                  have hlc : (iterStep env st).loopComplete = st.loopComplete := by
                    unfold iterStep
                    dsimp only
                    rw [hc]
                    dsimp only
                    rw [if_neg hskip, hfind]
                    dsimp only
                    rw [if_neg hconf, hfail]
                    rfl
                  rw [hlc, hc0] at h1
                  exact Bool.noConfusion h1

/-- If the loop ends completed, not force-exited, with empty final text, some
model reply during the run was an assistant message whose generator
derivation is empty and became the response. -/
theorem agentLoopFuel_empty_success (env : Env) :
    ∀ (fuel : Nat) (st : LoopState), st.loopComplete = false → st.forceExitLoop = false →
      (agentLoopFuel env fuel st).loopComplete = true →
      (agentLoopFuel env fuel st).forceExitLoop = false →
      (agentLoopFuel env fuel st).finalResponse = "" →
      ∃ k msg, env.chat k = ChatOutcome.ok msg ∧ generateFinalResponse msg = "" := by
  intro fuel
  induction fuel with
  | zero =>
    intro st hcst hfst h1 h2 h3
    simp only [agentLoopFuel] at h1
    rw [hcst] at h1
    exact Bool.noConfusion h1
  | succ fuel ih =>
    intro st hcst hfst h1 h2 h3
    by_cases hg : loopGuard st = true
    · rw [agentLoopFuel_succ_of_guard env fuel st hg] at h1 h2 h3
      by_cases hc' : (iterStep env st).loopComplete = true
      · have hstop : agentLoopFuel env fuel (iterStep env st) = iterStep env st :=
          agentLoopFuel_stop env fuel _ (loopGuard_false_of_complete _ hc')
        rw [hstop] at h1 h2 h3
        obtain ⟨msg, hmsg, hgen⟩ := iterStep_empty_success env st hcst hc' h2 h3
        exact ⟨st.iterations, msg, hmsg, hgen⟩
      · rcases iterStep_cases env st with hsame | ⟨hfe, _, hcompb⟩
        · exact ih (iterStep env st) (by simpa using hc') (hsame.trans hfst) h1 h2 h3
        · exact absurd hcompb hc'
    · rw [agentLoopFuel_stop env (fuel + 1) st (by simpa using hg)] at h1
      rw [hcst] at h1
      exact Bool.noConfusion h1

/-- The fixed validation-failure message matches none of the OpenAI-error
markers, so the outer catch re-throws it. -/
theorem apiKeyMsg_notOpenAIError : isOpenAIErrorMessage apiKeyInvalidMessage = false := by
  decide

/-- The post-loop step keeps every field but the response text. -/
theorem finish_fields (fin : LoopState) :
    (executeAgentLoopFinish fin).2.loopComplete = fin.loopComplete ∧
    (executeAgentLoopFinish fin).2.forceExitLoop = fin.forceExitLoop ∧
    (executeAgentLoopFinish fin).2.lastError = fin.lastError ∧
    (executeAgentLoopFinish fin).2.iterations = fin.iterations ∧
    (executeAgentLoopFinish fin).2.history = fin.history :=
  ⟨rfl, rfl, rfl, rfl, rfl⟩

/-- The post-loop step on an incomplete loop returns the apology. -/
theorem finish_fst_incomplete (fin : LoopState) (hcomp : fin.loopComplete = false) :
    (executeAgentLoopFinish fin).1 = Except.ok (iterationExceededMessage fin.lastError) := by
  unfold executeAgentLoopFinish
  rw [if_pos hcomp]

/-- The post-loop step on a completed loop returns the loop's response. -/
theorem finish_fst_complete (fin : LoopState) (hcomp : fin.loopComplete = true) :
    (executeAgentLoopFinish fin).1 = Except.ok fin.finalResponse := by
  unfold executeAgentLoopFinish
  rw [if_neg (by simp [hcomp])]

/-- On a completed loop the post-loop step leaves the final response alone. -/
theorem finish_snd_response_complete (fin : LoopState) (hcomp : fin.loopComplete = true) :
    (executeAgentLoopFinish fin).2.finalResponse = fin.finalResponse := by
  unfold executeAgentLoopFinish
  dsimp only
  rw [if_neg (by simp [hcomp])]

/-! ## Theorems for the claims -/

/-- C10: on an empty stored transcript, `summarizeConversationHistory` returns
a system-role message with content exactly "No conversation history yet.",
summary type "conversation_history" and no `file_references` field, and makes
no chat-completion call at all. -/
theorem summarize_empty_C10 (env : Env) :
    summarizeConversationHistory env [] =
      { history := []
        message := { role := Role.system, content := "No conversation history yet."
                     summary_type := "conversation_history", file_references := none
                     timestamp := env.now }
        clientCalls := 0 } := rfl

/-- C9: `summarizeConversationHistory` never mutates the stored transcript —
on the LLM-success path and on the transport-failure fallback path alike, the
history it leaves behind is the history it started from; on the fallback path
the returned message carries the deterministic templated count summary and
the collected file references. -/
theorem summarize_frame_C9 (env : Env) (h : List Message) :
    (summarizeConversationHistory env h).history = h ∧
    (env.summarizeOutcome = SummarizeOutcome.fail → h.length ≠ 0 →
      (summarizeConversationHistory env h).message.content = summarizeFallbackContent h ∧
      (summarizeConversationHistory env h).message.file_references =
        some (collectFileReferences env h)) := by
  unfold summarizeConversationHistory
  by_cases hlen : h.length = 0
  · simp [hlen]
  · cases hout : env.summarizeOutcome <;> simp [hlen, hout]

/-- Witness for C9 at a concrete one-message history with a failing
summarization transport. -/
theorem summarize_frame_C9_witness :
    (summarizeConversationHistory envBase [mUser]).history = [mUser] ∧
    (summarizeConversationHistory envBase [mUser]).message.content =
      summarizeFallbackContent [mUser] ∧
    (summarizeConversationHistory envBase [mUser]).message.file_references =
      some (collectFileReferences envBase [mUser]) :=
  ⟨(summarize_frame_C9 envBase [mUser]).1,
   ((summarize_frame_C9 envBase [mUser]).2 rfl (by decide)).1,
   ((summarize_frame_C9 envBase [mUser]).2 rfl (by decide)).2⟩

/-- C2 (code bug): the tool-call processor unconditionally reports that no
user confirmation is required — the loop's approval prompt is dead code —
even though the executor's own classifier marks `create_file` as requiring
confirmation and the loop passes the confirmation-required name set in. -/
theorem confirmation_never_requested_C2 :
    (∀ (env : Env) (calls : List ToolCall) (bts : List String),
      (processToolCalls env calls bts).1 = false) ∧
    requiresUserConfirmation "create_file" = true ∧
    (processToolCalls envBase [createFileCall] BREAKING_CHANGE_TOOLS).1 = false :=
  ⟨fun _ _ _ => rfl, by decide, rfl⟩

/-- C1 counterexample: a call whose tool implementation throws (here
`create_file` throwing "File already exists") is recorded with
`success := true` and output "Error executing tool: ...", not with
`success := false` and an "Error: " prefix as the claim states. -/
theorem toolThrow_recordedAsSuccess_C1 :
    envThrowingTool.behavior "create_file" "\x7b\x7d" =
      ToolBehavior.throws "File already exists" ∧
    (processToolCalls envThrowingTool [createFileCall] BREAKING_CHANGE_TOOLS).2 =
      [{ tool_call_id := "call_1", output := "Error executing tool: File already exists"
         success := true }] :=
  ⟨rfl, rfl⟩

/-- C1 (amended): `processToolCalls` maps each call independently; a call
whose argument text fails to parse yields `success := false` with an
"Error: " prefix, while a call whose arguments parse always yields
`success := true` — the executor converts a thrown tool error to the text
"Error executing tool: ..." and a timeout to the textual timeout message,
so neither is recorded as a failure. -/
theorem processToolCalls_classification_C1 (env : Env) (calls : List ToolCall)
    (bts : List String) :
    (processToolCalls env calls bts).2 = calls.map (processOneToolCall env) ∧
    (∀ (c : ToolCall) (e : String), env.parse c.function.arguments = Except.error e →
      processOneToolCall env c =
        { tool_call_id := c.id, output := "Error: " ++ e, success := false }) ∧
    (∀ (c : ToolCall) (a : ParsedArgs), env.parse c.function.arguments = Except.ok a →
      processOneToolCall env c =
        { tool_call_id := c.id
          output := executeWithTimeout (env.behavior c.function.name c.function.arguments) 30000
          success := true }) ∧
    (∀ (c : ToolCall) (a : ParsedArgs) (e : String),
      env.parse c.function.arguments = Except.ok a →
      env.behavior c.function.name c.function.arguments = ToolBehavior.throws e →
      (processOneToolCall env c).success = true ∧
      (processOneToolCall env c).output = "Error executing tool: " ++ e) ∧
    (∀ (c : ToolCall) (a : ParsedArgs), env.parse c.function.arguments = Except.ok a →
      env.behavior c.function.name c.function.arguments = ToolBehavior.timesOut →
      (processOneToolCall env c).success = true ∧
      (processOneToolCall env c).output = "Tool execution timed out after 30 seconds") := by
  refine ⟨?_, ?_, ?_, ?_, ?_⟩
  · show processToolCallsGo env calls = calls.map (processOneToolCall env)
    induction calls with
    | nil => rfl
    | cons c rest ih => simp [processToolCallsGo, ih]
  · intro c e hp
    unfold processOneToolCall
    rw [hp]
  · intro c a hp
    unfold processOneToolCall
    rw [hp]
    rfl
  · intro c a e hp hb
    unfold processOneToolCall executeToolWithTimeout
    rw [hp, hb]
    exact ⟨rfl, rfl⟩
  · intro c a hp hb
    unfold processOneToolCall executeToolWithTimeout
    rw [hp, hb]
    exact ⟨rfl, rfl⟩

/-- Witness for the amended C1 at the throwing-tool oracle. -/
theorem processToolCalls_classification_C1_witness :
    (processToolCalls envThrowingTool [createFileCall] []).2 =
      [createFileCall].map (processOneToolCall envThrowingTool) ∧
    (processOneToolCall envThrowingTool createFileCall).success = true ∧
    (processOneToolCall envThrowingTool createFileCall).output =
      "Error executing tool: " ++ "File already exists" :=
  ⟨(processToolCalls_classification_C1 envThrowingTool [createFileCall] []).1,
   (((processToolCalls_classification_C1 envThrowingTool [createFileCall] []).2.2.2.1)
      createFileCall [] "File already exists" rfl rfl).1,
   (((processToolCalls_classification_C1 envThrowingTool [createFileCall] []).2.2.2.1)
      createFileCall [] "File already exists" rfl rfl).2⟩

/-- C4: for every transcript satisfying the pairing invariant, the truncation
run after each append is a no-op at or under the configured maximum (so a
second truncation is a no-op once the result is at or under the maximum), it
only ever drops a prefix ending immediately after a user message (leaving the
transcript over-length rather than cutting elsewhere), and it never separates
a surviving assistant tool call from any of its tool responses. -/
theorem truncation_safe_C4 (maxLen : Nat) (h : List Message)
    (hinv : pairingInvariantB h = true) :
    (h.length ≤ maxLen → safelyTruncateConversationHistory maxLen h = h) ∧
    ((safelyTruncateConversationHistory maxLen h).length ≤ maxLen →
      safelyTruncateConversationHistory maxLen (safelyTruncateConversationHistory maxLen h) =
        safelyTruncateConversationHistory maxLen h) ∧
    (∃ p, safelyTruncateConversationHistory maxLen h = h.drop p ∧
      (p = 0 ∨ ∃ m, h[p - 1]? = some m ∧ m.role = Role.user) ∧
      (∀ (i : Nat) (mi : Message) (tc : ToolCall) (j : Nat) (mj : Message),
        p ≤ i → h[i]? = some mi → mi.role = Role.assistant → tc ∈ toolCallsOf mi →
        h[j]? = some mj → mj.role = Role.tool → mj.tool_call_id = some tc.id →
        p ≤ j)) := by
  refine ⟨fun hle => truncate_noop maxLen h hle, fun hle => truncate_noop maxLen _ hle, ?_⟩
  obtain ⟨p, heq, huser⟩ := truncate_eq_drop maxLen h
  refine ⟨p, heq, huser, ?_⟩
  intro i mi tc j mj hpi hi hri htc hj hrj hid
  have := resp_after_call hinv hi hri htc hj hrj hid
  omega

/-- Witness for C4 at a three-user-message transcript over maximum 2. -/
theorem truncation_safe_C4_witness :
    pairingInvariantB truncWitnessInput = true ∧
    (∃ p, safelyTruncateConversationHistory 2 truncWitnessInput = truncWitnessInput.drop p ∧
      (p = 0 ∨ ∃ m, truncWitnessInput[p - 1]? = some m ∧ m.role = Role.user) ∧
      (∀ (i : Nat) (mi : Message) (tc : ToolCall) (j : Nat) (mj : Message),
        p ≤ i → truncWitnessInput[i]? = some mi → mi.role = Role.assistant →
        tc ∈ toolCallsOf mi → truncWitnessInput[j]? = some mj → mj.role = Role.tool →
        mj.tool_call_id = some tc.id → p ≤ j)) :=
  ⟨by decide, (truncation_safe_C4 2 truncWitnessInput (by decide)).2.2⟩

/-- C5: when the assistant message's tool calls include one named `done`, the
iteration executes only that call — the transcript is extended by the
assistant message and exactly one tool-response message, carrying the done
call's result; siblings get none — the loop completes that iteration, and the
final response is the done call's output text, falling back to the response
generator's output when that text is empty. -/
theorem done_short_circuit_C5 (env : Env) (st : LoopState) (msg : Message)
    (d : ToolCall) (fuel : Nat)
    (hc : env.chat st.iterations = ChatOutcome.ok msg)
    (hd : (toolCallsOf msg).find? (fun tc => decide (tc.function.name = "done")) = some d) :
    (iterStep env st).loopComplete = true ∧
    (iterStep env st).history =
      addToConversationHistory
        (addToConversationHistory
          (summarizePreamble env { st with iterations := st.iterations + 1 }).history msg)
        (toolResponseMessage (processOneToolCall env d)) ∧
    (iterStep env st).finalResponse =
      (if (processOneToolCall env d).output = "" then generateFinalResponse msg
       else (processOneToolCall env d).output) ∧
    (loopGuard st = true → agentLoopFuel env (fuel + 1) st = iterStep env st) := by
  have hne : toolCallsOf msg ≠ [] := by
    intro hnil
    rw [hnil] at hd
    cases hd
  have hcond : ¬ (msg.tool_calls.isNone = true ∨ toolCallsOf msg = []) := by
    rintro (hnone | hnil)
    · apply hne
      unfold toolCallsOf
      rw [Option.isNone_iff_eq_none] at hnone
      rw [hnone]
      rfl
    · exact hne hnil
  have hstep : (iterStep env st).loopComplete = true ∧
      (iterStep env st).history =
        addToConversationHistory
          (addToConversationHistory
            (summarizePreamble env { st with iterations := st.iterations + 1 }).history msg)
          (toolResponseMessage (processOneToolCall env d)) ∧
      (iterStep env st).finalResponse =
        (if (processOneToolCall env d).output = "" then generateFinalResponse msg
         else (processOneToolCall env d).output) := by
    unfold iterStep
    dsimp only
    rw [hc]
    dsimp only
    rw [if_neg hcond, hd]
    refine ⟨rfl, rfl, ?_⟩
    dsimp only
    by_cases hout : (processOneToolCall env d).output = ""
    · rw [if_pos (by exact hout), if_pos hout]
    · rw [if_neg (by exact hout), if_neg hout]
      rfl
  refine ⟨hstep.1, hstep.2.1, hstep.2.2, fun hg => ?_⟩
  rw [agentLoopFuel_succ_of_guard env fuel st hg]
  exact agentLoopFuel_stop env fuel _ (loopGuard_false_of_complete _ hstep.1)

/-- Witness for C5: a reply carrying a `done` call and a sibling; only the
done result enters the transcript and the loop ends with its output. -/
theorem done_short_circuit_C5_witness :
    (iterStep envDone (initLoopState [mUser])).loopComplete = true ∧
    (iterStep envDone (initLoopState [mUser])).finalResponse = "Task complete." ∧
    agentLoopFuel envDone 10 (initLoopState [mUser]) = iterStep envDone (initLoopState [mUser]) :=
  ⟨(done_short_circuit_C5 envDone (initLoopState [mUser]) _ _ 9 rfl rfl).1,
   ((done_short_circuit_C5 envDone (initLoopState [mUser]) _ _ 9 rfl rfl).2.2.1).trans (by rfl),
   (done_short_circuit_C5 envDone (initLoopState [mUser]) _ _ 9 rfl rfl).2.2.2 rfl⟩

/-- C6: a chat-completion failure whose message marks a protocol violation
makes the iteration sanitize and clear the store, set both exit flags and the
fixed reset text, and make no further chat call — the loop ends on that very
iteration; at the entry point (scenario D) the call returns the fixed reset
message and a subsequent read of the store yields the empty transcript. -/
theorem protocol_reset_C6 (env : Env) (st : LoopState) (e : String) (fuel : Nat)
    (q : String) (h0 : List Message)
    (hc : env.chat st.iterations = ChatOutcome.err true e)
    (hp : isProtocolViolationMsg e = true) :
    (iterStep env st).finalResponse = apiErrorResetMessage ∧
    (iterStep env st).history = [] ∧
    (iterStep env st).loopComplete = true ∧
    (iterStep env st).forceExitLoop = true ∧
    (iterStep env st).iterations = st.iterations + 1 ∧
    (iterStep env st).chatCalls = st.chatCalls + 1 ∧
    (loopGuard st = true → agentLoopFuel env (fuel + 1) st = iterStep env st) ∧
    (env.apiKeyConfigured = true → env.chat 0 = ChatOutcome.err true e →
      (executeAgentLoop env q h0).1 = Except.ok apiErrorResetMessage ∧
      (executeAgentLoop env q h0).2.history = []) := by
  have hstep := iterStep_protocol env st e hc hp
  have hcomp : (iterStep env st).loopComplete = true := by rw [hstep]
  refine ⟨by rw [hstep], by rw [hstep], hcomp, by rw [hstep], by rw [hstep]; rfl,
    by rw [hstep], fun hg => ?_, fun hkey hc0 => ?_⟩
  · rw [agentLoopFuel_succ_of_guard env fuel st hg]
    exact agentLoopFuel_stop env fuel _ (loopGuard_false_of_complete _ hcomp)
  · unfold executeAgentLoop
    rw [if_neg (by simp [hkey])]
    set st0 := initialAgentState q h0 with hst0
    have hstep0 := iterStep_protocol env st0 e (by exact hc0) hp
    have hcomp0 : (iterStep env st0).loopComplete = true := by rw [hstep0]
    have hloop : runAgentLoop env st0 = iterStep env st0 := by
      unfold runAgentLoop
      rw [show MAX_ITERATIONS - st0.iterations = 10 from rfl]
      rw [show (10 : Nat) = 9 + 1 from rfl]
      rw [agentLoopFuel_succ_of_guard env 9 st0 rfl]
      exact agentLoopFuel_stop env 9 _ (loopGuard_false_of_complete _ hcomp0)
    constructor
    · rw [hloop, finish_fst_complete _ hcomp0, hstep0]
    · rw [show (executeAgentLoopFinish (runAgentLoop env st0)).2.history =
            (runAgentLoop env st0).history from rfl, hloop, hstep0]

/-- Witness for C6 at a transport that throws "invalid_request_error". -/
theorem protocol_reset_C6_witness :
    (executeAgentLoop envProtocolError "q" []).1 = Except.ok apiErrorResetMessage ∧
    (executeAgentLoop envProtocolError "q" []).2.history = [] ∧
    (iterStep envProtocolError (initLoopState [mUser])).chatCalls =
      (initLoopState [mUser]).chatCalls + 1 :=
  ⟨((protocol_reset_C6 envProtocolError (initLoopState [mUser])
      "invalid_request_error: bad sequence" 0 "q" [] rfl (by decide)).2.2.2.2.2.2.2
      rfl rfl).1,
   ((protocol_reset_C6 envProtocolError (initLoopState [mUser])
      "invalid_request_error: bad sequence" 0 "q" [] rfl (by decide)).2.2.2.2.2.2.2
      rfl rfl).2,
   (protocol_reset_C6 envProtocolError (initLoopState [mUser])
      "invalid_request_error: bad sequence" 0 "q" [] rfl (by decide)).2.2.2.2.2.1⟩

/-- C7 counterexample: with the model returning an assistant message with
empty content and no tool calls, `executeAgentLoop` reaches a success terminal
and returns the empty string — a terminal path whose text is empty, contrary
to the claim. -/
theorem empty_success_text_C7 :
    (executeAgentLoop envEmptyContent "hello" []).1 = Except.ok "" ∧
    (executeAgentLoop envEmptyContent "hello" []).2.loopComplete = true :=
  ⟨rfl, rfl⟩

/-- C7 (amended): `executeAgentLoop` throws to its caller only for the
credential precondition failure (with the fixed validation message); the
protocol-reset terminal returns the fixed non-empty reset text and the
iteration-exceeded terminal returns the non-empty apology embedding the last
error; a success terminal returns the loop's final response, and that text is
empty only when some model reply was an assistant message with falsy content
and no tool calls whose response-generator derivation (the empty string)
became the final text — in particular the `done` terminal never yields empty
text, falling back to the generator's non-empty output. -/
theorem terminal_text_C7 (env : Env) (q : String) (h0 : List Message) :
    (env.apiKeyConfigured = false →
      (executeAgentLoop env q h0).1 = Except.error apiKeyInvalidMessage) ∧
    (∀ e, (executeAgentLoop env q h0).1 = Except.error e →
      env.apiKeyConfigured = false ∧ e = apiKeyInvalidMessage) ∧
    (∀ t, (executeAgentLoop env q h0).1 = Except.ok t →
      (executeAgentLoop env q h0).2.forceExitLoop = true →
      t = apiErrorResetMessage ∧ t ≠ "") ∧
    (∀ t, (executeAgentLoop env q h0).1 = Except.ok t →
      (executeAgentLoop env q h0).2.loopComplete = false →
      t = iterationExceededMessage (executeAgentLoop env q h0).2.lastError ∧ t ≠ "") ∧
    (∀ t, (executeAgentLoop env q h0).1 = Except.ok t →
      (executeAgentLoop env q h0).2.loopComplete = true →
      (executeAgentLoop env q h0).2.forceExitLoop = false →
      t = (executeAgentLoop env q h0).2.finalResponse ∧
      (t = "" → ∃ k msg, env.chat k = ChatOutcome.ok msg ∧
        t = generateFinalResponse msg ∧ strTruthy msg.content = false ∧
        (msg.tool_calls.isNone = true ∨ toolCallsOf msg = []))) := by
  by_cases hk : env.apiKeyConfigured = false
  · unfold executeAgentLoop
    rw [if_pos hk, if_neg (by simp [apiKeyMsg_notOpenAIError])]
    refine ⟨fun _ => rfl, fun e he => ⟨hk, by cases he; rfl⟩, fun t ht => ?_, fun t ht => ?_,
      fun t ht => ?_⟩ <;> cases ht
  · unfold executeAgentLoop
    rw [if_neg hk]
    set st0 := initialAgentState q h0 with hst0
    set fin := runAgentLoop env st0 with hfin
    have hfe : fin.forceExitLoop = true →
        fin.finalResponse = apiErrorResetMessage ∧ fin.loopComplete = true := by
      intro h'
      exact agentLoopFuel_forceExit env (MAX_ITERATIONS - st0.iterations) st0 rfl h'
    refine ⟨fun hkf => absurd hkf hk, fun e he => ?_, fun t ht hforce => ?_,
      fun t ht hcomp => ?_, fun t ht hcomp hnf => ?_⟩
    · rw [executeAgentLoopFinish] at he
      cases he
    · rw [(finish_fields fin).2.1] at hforce
      obtain ⟨hresp, hcompT⟩ := hfe hforce
      rw [finish_fst_complete fin hcompT, hresp] at ht
      cases ht
      exact ⟨rfl, by decide⟩
    · rw [(finish_fields fin).1] at hcomp
      rw [finish_fst_incomplete fin hcomp] at ht
      cases ht
      exact ⟨by rw [(finish_fields fin).2.2.1], iterationExceededMessage_ne_empty _⟩
    · rw [(finish_fields fin).1] at hcomp
      rw [(finish_fields fin).2.1] at hnf
      rw [finish_fst_complete fin hcomp] at ht
      cases ht
      refine ⟨(finish_snd_response_complete fin hcomp).symm, fun hte => ?_⟩
      obtain ⟨k, msg, hck, hgen⟩ :=
        agentLoopFuel_empty_success env (MAX_ITERATIONS - st0.iterations) st0 rfl rfl
          hcomp hnf hte
      exact ⟨k, msg, hck, by rw [hte]; exact hgen.symm,
        (generateFinalResponse_eq_empty msg hgen).1,
        (generateFinalResponse_eq_empty msg hgen).2⟩

/-- Witness for the amended C7: the precondition path throws the fixed
message, an all-iterations-fail run returns the non-empty apology, and the
empty-success run's empty text traces to a model reply with falsy content and
no tool calls. -/
theorem terminal_text_C7_witness :
    (executeAgentLoop envNoKey "hi" []).1 = Except.error apiKeyInvalidMessage ∧
    iterationExceededMessage (executeAgentLoop envAllFail "hi" []).2.lastError ≠ "" ∧
    (∃ k msg, envEmptyContent.chat k = ChatOutcome.ok msg ∧
      ("" : String) = generateFinalResponse msg ∧ strTruthy msg.content = false ∧
      (msg.tool_calls.isNone = true ∨ toolCallsOf msg = [])) :=
  ⟨(terminal_text_C7 envNoKey "hi" []).1 rfl,
   ((terminal_text_C7 envAllFail "hi" []).2.2.2.1 _ rfl rfl).2,
   ((terminal_text_C7 envEmptyContent "hello" []).2.2.2.2 "" rfl rfl rfl).2 rfl⟩

/-- C8: `executeAgentLoop` always returns — the loop, whose fuel covers the
whole iteration budget, stops exactly when its guard fails, performs at most
`MAX_ITERATIONS` iterations, and when it exhausts the budget without a
terminal response the returned text is the iteration-exceeded message built
from the recorded last error. -/
theorem loop_bounded_C8 (env : Env) (q : String) (h0 : List Message) :
    (executeAgentLoop env q h0).2.iterations ≤ MAX_ITERATIONS ∧
    (env.apiKeyConfigured = true → loopGuard (executeAgentLoop env q h0).2 = false) ∧
    ((executeAgentLoop env q h0).2.loopComplete = false → env.apiKeyConfigured = true →
      (executeAgentLoop env q h0).1 =
        Except.ok (iterationExceededMessage (executeAgentLoop env q h0).2.lastError)) := by
  by_cases hk : env.apiKeyConfigured = false
  · unfold executeAgentLoop
    rw [if_pos hk, if_neg (by simp [apiKeyMsg_notOpenAIError])]
    refine ⟨Nat.zero_le _, fun hkt => ?_, fun _ hkt => ?_⟩
      <;> rw [hkt] at hk <;> simp at hk
  · unfold executeAgentLoop
    rw [if_neg hk]
    set st0 := initialAgentState q h0 with hst0
    set fin := runAgentLoop env st0 with hfin
    refine ⟨?_, fun _ => ?_, fun hcomp _ => ?_⟩
    · rw [(finish_fields fin).2.2.2.1]
      exact agentLoopFuel_iter_le env _ st0 (Nat.zero_le _)
    · show loopGuard (executeAgentLoopFinish fin).2 = false
      have hg : loopGuard (executeAgentLoopFinish fin).2 = loopGuard fin := rfl
      rw [hg]
      exact agentLoopFuel_terminal env _ st0 (Nat.le_refl _)
    · rw [(finish_fields fin).1] at hcomp
      rw [finish_fst_incomplete fin hcomp, (finish_fields fin).2.2.1]

/-- Witness for C8 at an oracle whose transport fails every iteration. -/
theorem loop_bounded_C8_witness :
    (executeAgentLoop envAllFail "hi" []).2.iterations ≤ MAX_ITERATIONS ∧
    loopGuard (executeAgentLoop envAllFail "hi" []).2 = false ∧
    (executeAgentLoop envAllFail "hi" []).1 =
      Except.ok (iterationExceededMessage (executeAgentLoop envAllFail "hi" []).2.lastError) :=
  ⟨(loop_bounded_C8 envAllFail "hi" []).1,
   (loop_bounded_C8 envAllFail "hi" []).2.1 rfl,
   (loop_bounded_C8 envAllFail "hi" []).2.2 (by decide) rfl⟩

/-- C3 (code bug): on the two-message transcript `c3Input` (an orphaned tool
response, then an assistant message whose tool call has no response),
`validateAndSanitizeConversationHistory` removes the orphan but fails to
insert the synthesized "Tool execution failed or timed out." response —
the recorded insertion index is stale after the removal — leaving the
assistant tool call unanswered, so the pairing invariant does not hold on the
result; likewise `sanitizeToolMessages` on `c3SanitizeInput` removes a whole
assistant message whose second call is unanswered, orphaning the first call's
response. -/
theorem validate_leaves_orphan_C3 :
    validateAndSanitizeConversationHistory c3Input = [c3Assistant] ∧
    pairingInvariantB (validateAndSanitizeConversationHistory c3Input) = false ∧
    (sanitizeToolMessages c3SanitizeInput).1 =
      [{ role := Role.tool, content := some "out a", tool_call_id := some "a" }] ∧
    pairingInvariantB (sanitizeToolMessages c3SanitizeInput).1 = false := by
  refine ⟨rfl, by decide, rfl, by decide⟩

end Sukode
